import Mathlib

/-!
Verification of the `ArticleScraperForm` component
(`src/components/ArticleScraperForm.tsx`), the single source file of the
repository.  The component keeps a two-field form record, validates the
fields, performs one HTTP POST per submission and tracks a three-valued
view status (Idle / Submitting / Succeeded).  All definitions below are a
shallow embedding of that source file; platform behaviour that the source
invokes (the JavaScript regular-expression engine for `validateEmail`, the
WHATWG `URL` constructor for `validateUrl`, JavaScript truthiness for
`result.ok`) is embedded by its documented semantics, with elisions noted
in the corresponding doc comments.
-/

set_option autoImplicit false

namespace ArticleScraper

/-! ### validateEmail (source lines 27-30) -/

/--
The character class `\s` of JavaScript regular expressions: the exact set
of white-space code points recognised by ECMAScript
(TAB, LF, VT, FF, CR, SP, NBSP, OGHAM SP, U+2000-200A, LS, PS, NNBSP,
MMSP, IDEOGRAPHIC SP, ZWNBSP).
-/
def jsWhitespace (c : Char) : Bool :=
  let n := c.toNat
  (9 ≤ n && n ≤ 13) || n = 0x20 || n = 0xa0 || n = 0x1680 ||
  (0x2000 ≤ n && n ≤ 0x200a) || n = 0x2028 || n = 0x2029 ||
  n = 0x202f || n = 0x205f || n = 0x3000 || n = 0xfeff

/--
A character admitted by the class `[^\s@]` of the source regex: neither
JavaScript white space nor the at-sign.
-/
def emailChar (c : Char) : Bool :=
  !jsWhitespace c && c != '@'

/--
`validateEmail` (source lines 27-30): `emailRegex.test(email)` with
`emailRegex = ^[^\s@]+@[^\s@]+\.[^\s@]+$` (anchored both ends).  A string
is in the language of that regex exactly when it decomposes as
`a ++ "@" ++ b ++ "." ++ c` with `a`, `b`, `c` nonempty strings of
`emailChar`s (`b` and `c` may contain further dots).  Since the three
pieces exclude the at-sign, the at-sign position `i` is unique; the regex
test is the decidable search below over the at-sign position `i` and a
dot position `j` with at least one admitted character before `i`,
between `i` and `j`, and after `j`.
-/
def validateEmail (email : String) : Bool :=
  let cs := email.toList
  let n := cs.length
  (List.range n).any fun i =>
    (List.range n).any fun j =>
      decide (1 ≤ i) && decide (i + 2 ≤ j) && decide (j + 2 ≤ n) &&
      (cs.getD i ' ' == '@') && (cs.getD j ' ' == '.') &&
      (List.range n).all fun k => k == i || emailChar (cs.getD k ' ')

/-! ### validateUrl (source lines 32-39)

`validateUrl` runs `new URL(url)` with no base and reports whether it
threw.  The constructor implements the basic URL parser of the WHATWG URL
Standard; the fragment modelled here covers what decides acceptance of an
absolute-URL string: input stripping, scheme parsing, the mandatory
nonempty host of special schemes, forbidden host code points and the
numeric port check.  IDNA mapping, percent-decoding of hosts, IPv4/IPv6
host forms and file-host details are elided (they only rewrite or reject
inputs outside the shapes exercised here). -/

/-- C0 control or space, stripped from both ends of the input. -/
def c0OrSpace (c : Char) : Bool :=
  c.toNat ≤ 0x20

/-- ASCII tab or newline, removed everywhere in the input. -/
def tabOrNewline (c : Char) : Bool :=
  c = '\t' || c = '\n' || c = '\r'

/-- Input preprocessing of the basic URL parser. -/
def urlPreprocess (s : String) : List Char :=
  ((((s.toList.dropWhile c0OrSpace).reverse.dropWhile c0OrSpace).reverse).filter
    fun c => !tabOrNewline c)

/-- First character of a scheme: an ASCII alpha. -/
def schemeStartChar (c : Char) : Bool :=
  (c ≥ 'a' && c ≤ 'z') || (c ≥ 'A' && c ≤ 'Z')

/-- Subsequent scheme characters: ASCII alphanumeric, `+`, `-` or `.`. -/
def schemeChar (c : Char) : Bool :=
  schemeStartChar c || (c ≥ '0' && c ≤ '9') || c = '+' || c = '-' || c = '.'

/-- ASCII lowercasing applied to the parsed scheme. -/
def asciiLower (c : Char) : Char :=
  if c ≥ 'A' && c ≤ 'Z' then Char.ofNat (c.toNat + 32) else c

/-- Scheme-state scanner: consumes scheme characters up to a colon. -/
def schemeLoop : List Char → List Char → Option (List Char × List Char)
  | _, [] => none
  | acc, c :: rest =>
      if c = ':' then some (acc.reverse, rest)
      else if schemeChar c then schemeLoop (c :: acc) rest
      else none

/--
Scheme state of the basic URL parser: an ASCII alpha followed by scheme
characters and a colon, lowercased; with no base URL, failure to parse a
scheme fails the whole parse.  Returns the scheme and the rest of the
input.
-/
def parseScheme (cs : List Char) : Option (String × List Char) :=
  match cs with
  | [] => none
  | c :: rest =>
      if schemeStartChar c then
        match schemeLoop [c] rest with
        | some (sch, rem) => some (String.mk (sch.map asciiLower), rem)
        | none => none
      else none

/-- The special schemes of the URL Standard. -/
def specialScheme (s : String) : Bool :=
  s = "http" || s = "https" || s = "ws" || s = "wss" || s = "ftp" || s = "file"

/-- Forbidden host code points (IPv6 brackets conservatively included). -/
def forbiddenHostChar (c : Char) : Bool :=
  c = Char.ofNat 0 || c = '\t' || c = '\n' || c = '\r' || c = ' ' ||
  c = '#' || c = '/' || c = ':' || c = '<' || c = '>' || c = '?' ||
  c = '@' || c = '[' || c = '\\' || c = ']' || c = '^' || c = '|'

/-- ASCII digit. -/
def asciiDigit (c : Char) : Bool :=
  c ≥ '0' && c ≤ '9'

/-- Port state: empty, or ASCII digits whose value fits in 16 bits. -/
def validPort (cs : List Char) : Bool :=
  cs.all asciiDigit &&
    (cs.foldl (fun a c => a * 10 + (c.toNat - 48)) 0) < 65536

/-- The parsed record of a URL; `host = none` means the URL carries no
authority (opaque-path URLs such as mailto URLs). -/
structure URLRec where
  scheme : String
  host : Option String
  path : String
  deriving Repr, DecidableEq

/--
Host-and-port parsing shared by the authority branches: the authority
chunk is everything up to the first path/query/fragment terminator, user
information before the last at-sign is dropped, a colon splits host from
port; the host must avoid forbidden host code points, and for special
schemes it must be nonempty.  An at-sign with an empty host fails.
-/
def parseAuthority (special : Bool) (cs : List Char) :
    Option (String × List Char) :=
  let term : Char → Bool := fun c =>
    c = '/' || c = '?' || c = '#' || (special && c = '\\')
  let chunk := cs.takeWhile fun c => !term c
  let rest := cs.dropWhile fun c => !term c
  let hostport :=
    if chunk.contains '@' then
      ((chunk.reverse.takeWhile fun c => c ≠ '@').reverse, true)
    else (chunk, false)
  let host := hostport.1.takeWhile fun c => c ≠ ':'
  let port := (hostport.1.dropWhile fun c => c ≠ ':').drop 1
  if host.isEmpty && (special || hostport.2) then none
  else if host.any forbiddenHostChar then none
  else if !(hostport.1.contains ':') || validPort port then
    some (String.mk (host.map asciiLower), rest)
  else none

/--
The basic URL parser with no base URL, reduced to the decision fragment
described above: preprocess, parse a scheme, then
- special scheme other than file: skip all leading slashes and
  backslashes, then require a valid nonempty host;
- file scheme: accepted (host details elided);
- other schemes followed by `//`: parse an authority whose host may be
  empty;
- other schemes otherwise: opaque path, always accepted.
-/
def parseURL (input : String) : Option URLRec :=
  match parseScheme (urlPreprocess input) with
  | none => none
  | some (sch, rest) =>
      if sch = "file" then
        some { scheme := sch, host := none, path := String.mk rest }
      else if specialScheme sch then
        let body := rest.dropWhile fun c => c = '/' || c = '\\'
        match parseAuthority true body with
        | none => none
        | some (host, rem) =>
            some { scheme := sch, host := some host, path := String.mk rem }
      else
        match rest with
        | '/' :: '/' :: body =>
            match parseAuthority false body with
            | none => none
            | some (host, rem) =>
                some { scheme := sch, host := some host, path := String.mk rem }
        | _ => some { scheme := sch, host := none, path := String.mk rest }

/--
`validateUrl` (source lines 32-39): `new URL(url)` succeeds or throws;
the function returns whether it succeeded.
-/
def validateUrl (url : String) : Bool :=
  (parseURL url).isSome

/-! ### Component state and events -/

/-- The `FormData` interface (source lines 9-12). -/
structure FormData where
  email : String
  article_url : String
  deriving Repr, DecidableEq

/-- `keyof FormData`: the two field names. -/
inductive Field where
  | email
  | article_url
  deriving Repr, DecidableEq

/-- Read a field of the form record. -/
def FormData.get (fd : FormData) : Field → String
  | .email => fd.email
  | .article_url => fd.article_url

/--
`handleInputChange(field, value)` (source lines 23-25):
`setFormData(prev => (\x7b ...prev, [field]: value \x7d))` — a functional
update that overwrites the named field and spreads the rest.
-/
def handleInputChange (fd : FormData) : Field → String → FormData
  | .email, v => { fd with email := v }
  | .article_url, v => { fd with article_url := v }

/--
JSON values, as produced by `response.json()`.  Numbers are embedded as
integers (no floating point is exercised by the component; the only use
of the body is the truthiness test on its `ok` member).
-/
inductive JValue where
  | null
  | bool (b : Bool)
  | num (n : Int)
  | str (s : String)
  | arr (elems : List JValue)
  | obj (fields : List (String × JValue))
  deriving Repr

/-- Member lookup `result.ok`: first matching key of an object, `none` for
a missing key or a non-object (JavaScript `undefined`). -/
def jLookup : JValue → String → Option JValue
  | .obj fields, k =>
      match fields.find? (fun p => p.1 = k) with
      | some p => some p.2
      | none => none
  | _, _ => none

/--
JavaScript truthiness of a JSON value: `false`, `0`, the empty string and
`null` are falsy; every object and array is truthy.  A missing member
(`undefined`) is falsy.
-/
def truthy : Option JValue → Bool
  | none => false
  | some .null => false
  | some (.bool b) => b
  | some (.num n) => n != 0
  | some (.str s) => s ≠ ""
  | some (.arr _) => true
  | some (.obj _) => true

/-- The four toast notifications the component can fire (source lines
45-49, 53-57, 84-87, 93-97). -/
inductive Toast where
  | invalidEmail
  | invalidUrl
  | success
  | genericFailure
  deriving Repr, DecidableEq

/-- An HTTP request as issued by `fetch` (source lines 65-75); the body is
the JSON value serialised by `JSON.stringify`. -/
structure Request where
  url : String
  method : String
  headers : List (String × String)
  body : JValue
  deriving Repr

/-- The request literal of source lines 65-75, built from the form record
at submit time (header names as written in the source). -/
def submitRequest (fd : FormData) : Request :=
  { url := "http://localhost:8000/submit"
    method := "POST"
    headers := [("Content-Type", "application/json"),
                ("accept", "application/json")]
    body := .obj [("email", .str fd.email), ("article_url", .str fd.article_url)] }

/--
The resolution of one `fetch`: either a response with an HTTP status and
a body (`none` when the body is not parseable JSON, making
`response.json()` throw), or a network-level exception.
-/
inductive FetchOutcome where
  | response (status : Nat) (body : Option JValue)
  | netError
  deriving Repr

/-- `response.ok`: status in the range 200-299. -/
def statusOk (status : Nat) : Bool :=
  200 ≤ status && status ≤ 299

/-- An outcome the `try` block of `handleSubmit` turns into the catch
branch: network error, non-2xx status, unparseable body, or a falsy `ok`
member. -/
def failureOutcome : FetchOutcome → Bool
  | .netError => true
  | .response status body =>
      !statusOk status ||
        match body with
        | none => true
        | some j => !truthy (jLookup j "ok")

/--
The component state: the form record and the two `useState` booleans
(source lines 15-20), plus the number of currently outstanding `fetch`
calls, which the source tracks implicitly through the pending promise.
-/
structure MState where
  form : FormData
  isLoading : Bool
  isSuccess : Bool
  pendingReq : Nat
  deriving Repr, DecidableEq

/-- The initial component state (source lines 15-20). -/
def initState : MState :=
  { form := { email := "", article_url := "" }
    isLoading := false
    isSuccess := false
    pendingReq := 0 }

/-- The three-valued view status of the spec, derived from the two
booleans exactly as the render does (source lines 120, 177-183): the
success panel replaces the form when `isSuccess`, otherwise the button
shows the Submitting state while `isLoading`. -/
inductive ViewStatus where
  | Idle
  | Submitting
  | Succeeded
  deriving Repr, DecidableEq

/-- Derive the view status from a component state. -/
def viewStatus (s : MState) : ViewStatus :=
  if s.isSuccess then .Succeeded
  else if s.isLoading then .Submitting
  else .Idle

/-- The submit button is disabled exactly while `isLoading` (source line
180: `disabled=\x7bisLoading\x7d`). -/
def buttonDisabled (s : MState) : Bool :=
  s.isLoading

/--
The tail of `handleSubmit` after the fetch resolves (source lines 77-99):
`!response.ok` throws; `result.ok` truthy sets `isSuccess` and fires the
success toast, otherwise the code throws; every throw (including a
network-level exception from `fetch` itself or from `response.json()`)
lands in the catch branch, which fires the one generic failure toast; the
`finally` branch clears `isLoading` on every path.
-/
def handleSubmitResolve (s : MState) (out : FetchOutcome) :
    MState × List Toast :=
  match out with
  | .netError => ({ s with isLoading := false }, [.genericFailure])
  | .response status body =>
      if statusOk status then
        match body with
        | none => ({ s with isLoading := false }, [.genericFailure])
        | some j =>
            if truthy (jLookup j "ok") then
              ({ s with isSuccess := true, isLoading := false }, [.success])
            else
              ({ s with isLoading := false }, [.genericFailure])
      else ({ s with isLoading := false }, [.genericFailure])

/--
The user-interaction and network events the component reacts to:
editing an input, submitting the form, the resolution of an outstanding
fetch, and clicking the reset button of the success panel.
-/
inductive Ev where
  | input (f : Field) (v : String)
  | submitClick
  | resolve (out : FetchOutcome)
  | resetClick

/-- The outcome of one event: the next state and the toasts fired and
requests issued while handling it. -/
structure StepOut where
  state : MState
  toasts : List Toast
  reqs : List Request

/--
One event step of the component.
- `input` (source lines 147-177): the inputs exist only while the form is
  rendered, i.e. while `isSuccess` is false; they are never disabled, so
  editing also works while `isLoading`.
- `submitClick` (source lines 42-76): the form is rendered only when
  `isSuccess` is false and the submit button is disabled while
  `isLoading`, so the handler runs only from the enabled form; it then
  validates email before URL, aborting with a field toast and no request,
  and otherwise sets `isLoading` and issues the POST.
- `resolve` (source lines 77-99): delivers the outcome of an outstanding
  fetch through `handleSubmitResolve`.
- `resetClick` (source lines 103-106, 129-135): the reset button exists
  only on the success panel; `resetForm` clears the form record and
  `isSuccess`.
-/
def step (s : MState) : Ev → StepOut
  | .input f v =>
      if s.isSuccess then { state := s, toasts := [], reqs := [] }
      else { state := { s with form := handleInputChange s.form f v }
             toasts := [], reqs := [] }
  | .submitClick =>
      if s.isSuccess || s.isLoading then { state := s, toasts := [], reqs := [] }
      else if !validateEmail s.form.email then
        { state := s, toasts := [.invalidEmail], reqs := [] }
      else if !validateUrl s.form.article_url then
        { state := s, toasts := [.invalidUrl], reqs := [] }
      else
        { state := { s with isLoading := true, pendingReq := s.pendingReq + 1 }
          toasts := [], reqs := [submitRequest s.form] }
  | .resolve out =>
      if s.pendingReq = 0 then { state := s, toasts := [], reqs := [] }
      else
        let r := handleSubmitResolve { s with pendingReq := s.pendingReq - 1 } out
        { state := r.1, toasts := r.2, reqs := [] }
  | .resetClick =>
      if s.isSuccess then
        { state := { s with form := { email := "", article_url := "" }
                            isSuccess := false }
          toasts := [], reqs := [] }
      else { state := s, toasts := [], reqs := [] }

/-- The states the component can reach from its initial state under any
sequence of events. -/
inductive Reachable : MState → Prop where
  | init : Reachable initState
  | step {s : MState} (e : Ev) : Reachable s → Reachable (step s e).state

/-- ASCII lowercasing of a header name (HTTP header names are
case-insensitive). -/
def lowerName (s : String) : String :=
  String.mk (s.toList.map asciiLower)

/-! ### Concrete states used to instantiate the theorems -/

/-- A form record passing both validators. -/
def demoForm : FormData :=
  { email := "user@example.com", article_url := "https://example.com/a" }

/-- An idle state holding the valid demo form. -/
def idleReadyState : MState :=
  { form := demoForm, isLoading := false, isSuccess := false, pendingReq := 0 }

/-- An idle state whose email field fails validation. -/
def invalidEmailState : MState :=
  { form := { email := "bad-email", article_url := "https://example.com/a" }
    isLoading := false, isSuccess := false, pendingReq := 0 }

/-- The state reached by submitting the valid demo form: one fetch
outstanding. -/
def submittingState : MState :=
  (step idleReadyState Ev.submitClick).state

/-- The state reached when the demo submission resolves with status 200
and body with member ok set to the boolean true. -/
def succeededState : MState :=
  (step submittingState
    (Ev.resolve (.response 200 (some (.obj [("ok", JValue.bool true)]))))).state

/-! ### Helper lemmas -/

lemma viewStatus_eq_idle_iff (s : MState) :
    viewStatus s = .Idle ↔ s.isSuccess = false ∧ s.isLoading = false := by
  cases hs : s.isSuccess <;> cases hl : s.isLoading <;>
    simp [viewStatus, hs, hl]

lemma viewStatus_eq_submitting_iff (s : MState) :
    viewStatus s = .Submitting ↔ s.isSuccess = false ∧ s.isLoading = true := by
  cases hs : s.isSuccess <;> cases hl : s.isLoading <;>
    simp [viewStatus, hs, hl]

lemma viewStatus_eq_succeeded_iff (s : MState) :
    viewStatus s = .Succeeded ↔ s.isSuccess = true := by
  cases hs : s.isSuccess <;> cases hl : s.isLoading <;>
    simp [viewStatus, hs, hl]

/--
The inductive invariant of the component: never more than one fetch
outstanding, the `isLoading` flag tracks the outstanding fetch exactly,
and the success panel is never shown while a fetch is outstanding.
-/
def StateInv (s : MState) : Prop :=
  s.pendingReq ≤ 1 ∧ (s.isLoading = true ↔ s.pendingReq = 1) ∧
    (s.isLoading = true → s.isSuccess = false)

lemma stateInv_init : StateInv initState := by
  refine ⟨by simp [initState], ?_, ?_⟩ <;> simp [initState]

lemma stateInv_step (s : MState) (e : Ev) (h : StateInv s) :
    StateInv (step s e).state := by
  obtain ⟨fd, il, isc, p⟩ := s
  obtain ⟨h1, h2, h3⟩ := h
  cases e with
  | input f v =>
      cases il <;> cases isc <;> simp_all [step, StateInv]
  | submitClick =>
      by_cases he : validateEmail fd.email <;>
        by_cases hu : validateUrl fd.article_url <;>
        cases il <;> cases isc <;>
        simp_all [step, StateInv]
      all_goals omega
  | resolve out =>
      by_cases hp : p = 0
      · cases il <;> cases isc <;> simp_all [step, StateInv]
      · rcases out with ⟨status, body⟩ | _
        · rcases body with _ | j
          · by_cases hst : statusOk status <;>
              cases il <;> cases isc <;>
              simp_all [step, StateInv, handleSubmitResolve]
          · by_cases hst : statusOk status <;>
              by_cases hok : truthy (jLookup j "ok") <;>
              cases il <;> cases isc <;>
              simp_all [step, StateInv, handleSubmitResolve]
        · cases il <;> cases isc <;>
            simp_all [step, StateInv, handleSubmitResolve]
  | resetClick =>
      cases il <;> cases isc <;> simp_all [step, StateInv]

lemma stateInv_of_reachable {s : MState} (h : Reachable s) : StateInv s := by
  induction h with
  | init => exact stateInv_init
  | step e _ ih => exact stateInv_step _ e ih

/-! ### Claim theorems -/

/--
C6: every string that contains no at-sign, or contains no dot after its
at-sign, is rejected by `validateEmail`, while "user@example.com" is
accepted.
-/
theorem validateEmail_shape (s : String)
    (h : ¬ '@' ∈ s.toList ∨
      ∀ i j : Nat, i < j → s.toList.getD i ' ' = '@' →
        s.toList.getD j ' ' ≠ '.') :
    validateEmail s = false ∧ validateEmail "user@example.com" = true := by
  refine ⟨?_, by rfl⟩
  cases hv : validateEmail s with
  | false => rfl
  | true =>
      exfalso
      simp only [validateEmail, List.any_eq_true, List.mem_range,
        Bool.and_eq_true, decide_eq_true_eq, beq_iff_eq,
        List.all_eq_true] at hv
      obtain ⟨i, hi, j, hj, ⟨⟨⟨⟨hi1, hij⟩, hjn⟩, hat⟩, hdot⟩, hall⟩ := hv
      rcases h with hna | hnd
      · refine hna ?_
        rw [List.getD_eq_getElem _ _ hi] at hat
        exact hat ▸ List.getElem_mem hi
      · exact hnd i j (by omega) hat hdot

/--
C6 witness: "userexample.com" has no at-sign and is rejected;
"user@example.com" is accepted.
-/
theorem validateEmail_shape_witness :
    validateEmail "userexample.com" = false ∧
      validateEmail "user@example.com" = true :=
  validateEmail_shape "userexample.com" (Or.inl (by decide))

/--
C1 counterexample: `validateUrl` accepts "mailto:a@b.c", which parses as
an absolute URL with a scheme but no authority (`host = none`), so
acceptance is not equivalent to being an absolute URL with a scheme and
an authority.
-/
theorem validateUrl_no_authority_cex :
    validateUrl "mailto:a@b.c" = true ∧
      parseURL "mailto:a@b.c" =
        some { scheme := "mailto", host := none, path := "a@b.c" } :=
  ⟨rfl, rfl⟩

/--
C1 (amended): `validateUrl(value)` returns true iff the value parses as
a well-formed absolute URL, for which a scheme is required but an
authority is not; every string without a parseable scheme prefix — every
relative path and every non-parseable string such as "not a url" —
returns false, and "https://example.com/a" returns true.
-/
theorem validateUrl_spec (s : String)
    (h : parseScheme (urlPreprocess s) = none) :
    validateUrl s = false ∧
      validateUrl "not a url" = false ∧
      validateUrl "https://example.com/a" = true ∧
      validateUrl "mailto:a@b.c" = true := by
  refine ⟨?_, by rfl, by rfl, by rfl⟩
  simp [validateUrl, parseURL, h]

/--
C1 witness: "not a url" has no scheme prefix (the space terminates the
scheme scan before any colon), so the amended theorem applies to it.
-/
theorem validateUrl_spec_witness :
    validateUrl "not a url" = false ∧
      validateUrl "not a url" = false ∧
      validateUrl "https://example.com/a" = true ∧
      validateUrl "mailto:a@b.c" = true :=
  validateUrl_spec "not a url" (by rfl)

lemma reachable_idleReady : Reachable idleReadyState := by
  have h : Reachable (step (step initState
      (Ev.input Field.email "user@example.com")).state
      (Ev.input Field.article_url "https://example.com/a")).state :=
    Reachable.step (Ev.input Field.article_url "https://example.com/a")
      (Reachable.step (Ev.input Field.email "user@example.com") Reachable.init)
  have he : (step (step initState
      (Ev.input Field.email "user@example.com")).state
      (Ev.input Field.article_url "https://example.com/a")).state
      = idleReadyState := by decide
  rwa [he] at h

lemma reachable_submitting : Reachable submittingState :=
  Reachable.step Ev.submitClick reachable_idleReady

lemma reachable_succeeded : Reachable succeededState :=
  Reachable.step
    (Ev.resolve (.response 200 (some (.obj [("ok", JValue.bool true)]))))
    reachable_submitting

/--
C10: `handleInputChange(f, v)` sets field `f` of the form record to `v`,
leaves the other field unchanged, always succeeds, and when delivered as
an event it fires no toast and issues no request (no validation or
network effect).
-/
theorem handleInputChange_frame (fd : FormData) (f g : Field) (v : String)
    (s : MState) (hg : g ≠ f) :
    (handleInputChange fd f v).get f = v ∧
    (handleInputChange fd f v).get g = fd.get g ∧
    (s.isSuccess = false →
      (step s (Ev.input f v)).state =
        { s with form := handleInputChange s.form f v }) ∧
    (step s (Ev.input f v)).toasts = [] ∧
    (step s (Ev.input f v)).reqs = [] := by
  refine ⟨?_, ?_, fun hs => ?_, ?_, ?_⟩
  · cases f <;> rfl
  · cases f <;> cases g <;> first | exact absurd rfl hg | rfl
  · simp [step, hs]
  · by_cases hs : s.isSuccess = true <;> simp [step, hs]
  · by_cases hs : s.isSuccess = true <;> simp [step, hs]

/-- C10 witness: updating the email field of a concrete record. -/
theorem handleInputChange_frame_witness :
    (handleInputChange { email := "a", article_url := "b" }
        Field.email "x").get Field.email = "x" ∧
    (handleInputChange { email := "a", article_url := "b" }
        Field.email "x").get Field.article_url =
      FormData.get { email := "a", article_url := "b" } Field.article_url ∧
    (initState.isSuccess = false →
      (step initState (Ev.input Field.email "x")).state =
        { initState with
            form := handleInputChange initState.form Field.email "x" }) ∧
    (step initState (Ev.input Field.email "x")).toasts = [] ∧
    (step initState (Ev.input Field.email "x")).reqs = [] :=
  handleInputChange_frame { email := "a", article_url := "b" }
    Field.email Field.article_url "x" initState (by decide)

/--
C9: from the Succeeded view, `resetForm` clears the form record to empty
strings and returns the view to Idle, with no toast and no request; from
any other view, the reset control does not exist, so the reset event is a
no-op.
-/
theorem resetForm_spec (s : MState) (hr : Reachable s) :
    (viewStatus s = .Succeeded →
      (step s Ev.resetClick).state.form = { email := "", article_url := "" } ∧
      viewStatus (step s Ev.resetClick).state = .Idle ∧
      (step s Ev.resetClick).toasts = [] ∧
      (step s Ev.resetClick).reqs = []) ∧
    (viewStatus s ≠ .Succeeded →
      step s Ev.resetClick = { state := s, toasts := [], reqs := [] }) := by
  obtain ⟨h1, h2, h3⟩ := stateInv_of_reachable hr
  constructor
  · intro hsSucc
    have hs : s.isSuccess = true := (viewStatus_eq_succeeded_iff s).mp hsSucc
    have hl : s.isLoading = false := by
      cases hl : s.isLoading
      · rfl
      · exact absurd (h3 hl) (by simp [hs])
    refine ⟨?_, ?_, ?_, ?_⟩ <;> simp [step, hs, viewStatus, hl]
  · intro hns
    have hs : s.isSuccess = false := by
      cases hs : s.isSuccess
      · rfl
      · exact absurd ((viewStatus_eq_succeeded_iff s).mpr hs) hns
    simp [step, hs]

/-- C9 witness: resetting from a concretely reached Succeeded state. -/
theorem resetForm_spec_witness :
    (step succeededState Ev.resetClick).state.form =
        { email := "", article_url := "" } ∧
      viewStatus (step succeededState Ev.resetClick).state = .Idle := by
  have h := resetForm_spec succeededState reachable_succeeded
  exact ⟨(h.1 (by rfl)).1, (h.1 (by rfl)).2.1⟩

/--
C5: submitting a form whose email field fails `validateEmail` — or whose
email passes but whose URL field fails `validateUrl` — fires one toast
identifying the invalid field, leaves the state unchanged and issues no
network request.
-/
theorem submit_invalid_field_no_request (s : MState)
    (hIdle : viewStatus s = .Idle)
    (hinv : validateEmail s.form.email = false ∨
      validateUrl s.form.article_url = false) :
    (step s Ev.submitClick).reqs = [] ∧
    (step s Ev.submitClick).state = s ∧
    ((step s Ev.submitClick).toasts = [Toast.invalidEmail] ∨
      (step s Ev.submitClick).toasts = [Toast.invalidUrl]) ∧
    (validateEmail s.form.email = false →
      (step s Ev.submitClick).toasts = [Toast.invalidEmail]) ∧
    (validateEmail s.form.email = true →
      validateUrl s.form.article_url = false →
      (step s Ev.submitClick).toasts = [Toast.invalidUrl]) := by
  obtain ⟨hs, hl⟩ := (viewStatus_eq_idle_iff s).mp hIdle
  by_cases he : validateEmail s.form.email = true
  · have hu : validateUrl s.form.article_url = false := by
      rcases hinv with h | h
      · rw [he] at h
        exact absurd h (by simp)
      · exact h
    refine ⟨?_, ?_, Or.inr ?_, ?_, ?_⟩ <;> simp [step, hs, hl, he, hu]
  · have hef : validateEmail s.form.email = false := by
      simpa using he
    refine ⟨?_, ?_, Or.inl ?_, ?_, ?_⟩ <;> simp [step, hs, hl, hef]

/-- C5 witness: submitting with an invalid email issues no request. -/
theorem submit_invalid_field_no_request_witness :
    (step invalidEmailState Ev.submitClick).reqs = [] ∧
    (step invalidEmailState Ev.submitClick).state = invalidEmailState ∧
    ((step invalidEmailState Ev.submitClick).toasts = [Toast.invalidEmail] ∨
      (step invalidEmailState Ev.submitClick).toasts = [Toast.invalidUrl]) ∧
    (validateEmail invalidEmailState.form.email = false →
      (step invalidEmailState Ev.submitClick).toasts = [Toast.invalidEmail]) ∧
    (validateEmail invalidEmailState.form.email = true →
      validateUrl invalidEmailState.form.article_url = false →
      (step invalidEmailState Ev.submitClick).toasts = [Toast.invalidUrl]) :=
  submit_invalid_field_no_request invalidEmailState rfl (Or.inl rfl)

/--
C8: a submission from an idle state with valid fields issues exactly one
request: an HTTP POST to http://localhost:8000/submit whose header names,
compared case-insensitively as HTTP prescribes, carry Content-Type and
Accept set to application/json, and whose JSON body carries the email and
article_url taken from the form record at submit time.
-/
theorem submit_wire_format (s : MState)
    (hIdle : viewStatus s = .Idle)
    (he : validateEmail s.form.email = true)
    (hu : validateUrl s.form.article_url = true) :
    ∃ r : Request, (step s Ev.submitClick).reqs = [r] ∧
      r.method = "POST" ∧
      r.url = "http://localhost:8000/submit" ∧
      r.headers.map (fun p => (lowerName p.1, p.2)) =
        [("content-type", "application/json"),
         ("accept", "application/json")] ∧
      r.body = JValue.obj
        [("email", .str s.form.email),
         ("article_url", .str s.form.article_url)] := by
  obtain ⟨hs, hl⟩ := (viewStatus_eq_idle_iff s).mp hIdle
  refine ⟨submitRequest s.form, ?_, rfl, rfl, ?_, rfl⟩
  · simp [step, hs, hl, he, hu]
  · rfl

/-- C8 witness: the request issued for the valid demo form. -/
theorem submit_wire_format_witness :
    ∃ r : Request, (step idleReadyState Ev.submitClick).reqs = [r] ∧
      r.method = "POST" ∧
      r.url = "http://localhost:8000/submit" ∧
      r.headers.map (fun p => (lowerName p.1, p.2)) =
        [("content-type", "application/json"),
         ("accept", "application/json")] ∧
      r.body = JValue.obj
        [("email", .str idleReadyState.form.email),
         ("article_url", .str idleReadyState.form.article_url)] :=
  submit_wire_format idleReadyState rfl rfl rfl

/--
C2 counterexample: the source tests `result.ok` for truthiness, not for
being exactly the boolean true.  Resolving the outstanding demo
submission with status 200 and body whose ok member is the number 1 — a
value that is not the boolean true — makes the view Succeeded and fires
the success toast, not the generic failure toast.
-/
theorem submit_truthy_ok_cex :
    viewStatus (step submittingState
        (Ev.resolve (.response 200 (some (.obj [("ok", JValue.num 1)]))))).state
      = .Succeeded ∧
    (step submittingState
        (Ev.resolve (.response 200 (some (.obj [("ok", JValue.num 1)]))))).toasts
      = [Toast.success] :=
  ⟨rfl, rfl⟩

/--
C2 (amended): for every HTTP response resolving an outstanding
submission whose parsed JSON body has a falsy ok member (absent, false,
0, the empty string or null), the submission is treated as a failure:
the view does not become Succeeded and the generic failure notification
fires.  (A truthy non-boolean ok value, such as the number 1, is treated
as success.)
-/
theorem submit_falsy_ok_failure (s : MState) (status : Nat) (j : JValue)
    (hs : s.isSuccess = false) (hp : s.pendingReq ≠ 0)
    (hok : truthy (jLookup j "ok") = false) :
    (step s (Ev.resolve (.response status (some j)))).state.isSuccess = false ∧
    viewStatus (step s (Ev.resolve (.response status (some j)))).state
      ≠ .Succeeded ∧
    (step s (Ev.resolve (.response status (some j)))).toasts
      = [Toast.genericFailure] := by
  by_cases hst : statusOk status = true <;>
    simp [step, hp, handleSubmitResolve, hst, hok, hs, viewStatus]

/-- C2 witness: a response with ok set to the boolean false resolves the
outstanding demo submission as a failure. -/
theorem submit_falsy_ok_failure_witness :
    (step submittingState
        (Ev.resolve (.response 200 (some (.obj [("ok", JValue.bool false)]))))).state.isSuccess
      = false ∧
    viewStatus (step submittingState
        (Ev.resolve (.response 200 (some (.obj [("ok", JValue.bool false)]))))).state
      ≠ .Succeeded ∧
    (step submittingState
        (Ev.resolve (.response 200 (some (.obj [("ok", JValue.bool false)]))))).toasts
      = [Toast.genericFailure] :=
  submit_falsy_ok_failure submittingState 200 (.obj [("ok", JValue.bool false)])
    rfl (by decide) rfl

/--
C3: a submission of valid fields whose fetch fails — network error,
non-2xx status, unparseable body, or falsy ok member — fires no toast on
issuance and exactly one generic failure toast on resolution, clears
`isLoading`, and returns the view to Idle.
-/
theorem submit_failure_recovers (s : MState) (out : FetchOutcome)
    (hIdle : viewStatus s = .Idle)
    (he : validateEmail s.form.email = true)
    (hu : validateUrl s.form.article_url = true)
    (hf : failureOutcome out = true) :
    (step s Ev.submitClick).toasts = [] ∧
    (step (step s Ev.submitClick).state (Ev.resolve out)).toasts
      = [Toast.genericFailure] ∧
    (step (step s Ev.submitClick).state (Ev.resolve out)).state.isLoading
      = false ∧
    viewStatus (step (step s Ev.submitClick).state (Ev.resolve out)).state
      = .Idle := by
  obtain ⟨hs, hl⟩ := (viewStatus_eq_idle_iff s).mp hIdle
  have hstep : (step s Ev.submitClick).state =
      { s with isLoading := true, pendingReq := s.pendingReq + 1 } := by
    simp [step, hs, hl, he, hu]
  have key : (step { s with isLoading := true, pendingReq := s.pendingReq + 1 }
        (Ev.resolve out)).toasts = [Toast.genericFailure] ∧
      (step { s with isLoading := true, pendingReq := s.pendingReq + 1 }
        (Ev.resolve out)).state.isLoading = false ∧
      viewStatus (step { s with isLoading := true, pendingReq := s.pendingReq + 1 }
        (Ev.resolve out)).state = .Idle := by
    rcases out with ⟨status, body⟩ | _
    · rcases body with _ | j
      · by_cases hst : statusOk status = true <;>
          simp [step, handleSubmitResolve, hst, viewStatus, hs]
      · by_cases hst : statusOk status = true
        · have hok : truthy (jLookup j "ok") = false := by
            simpa [failureOutcome, hst] using hf
          simp [step, handleSubmitResolve, hst, hok, viewStatus, hs]
        · simp [step, handleSubmitResolve, hst, viewStatus, hs]
    · simp [step, handleSubmitResolve, viewStatus, hs]
  exact ⟨by simp [step, hs, hl, he, hu], hstep ▸ key.1, hstep ▸ key.2.1,
    hstep ▸ key.2.2⟩

/-- C3 witness: a network error on the valid demo submission. -/
theorem submit_failure_recovers_witness :
    (step idleReadyState Ev.submitClick).toasts = [] ∧
    (step (step idleReadyState Ev.submitClick).state
        (Ev.resolve FetchOutcome.netError)).toasts = [Toast.genericFailure] ∧
    (step (step idleReadyState Ev.submitClick).state
        (Ev.resolve FetchOutcome.netError)).state.isLoading = false ∧
    viewStatus (step (step idleReadyState Ev.submitClick).state
        (Ev.resolve FetchOutcome.netError)).state = .Idle :=
  submit_failure_recovers idleReadyState FetchOutcome.netError rfl rfl rfl rfl

/--
C4: a submission of valid fields answered with status 200 and body with
ok set to the boolean true moves the view Idle, then Submitting, then
Succeeded, and across the whole attempt exactly one toast fires: the
success toast.
-/
theorem submit_success_trace (s : MState)
    (hIdle : viewStatus s = .Idle)
    (he : validateEmail s.form.email = true)
    (hu : validateUrl s.form.article_url = true) :
    viewStatus s = .Idle ∧
    viewStatus (step s Ev.submitClick).state = .Submitting ∧
    viewStatus (step (step s Ev.submitClick).state
        (Ev.resolve (.response 200 (some (.obj [("ok", JValue.bool true)]))))).state
      = .Succeeded ∧
    (step s Ev.submitClick).toasts ++
      (step (step s Ev.submitClick).state
        (Ev.resolve (.response 200 (some (.obj [("ok", JValue.bool true)]))))).toasts
      = [Toast.success] := by
  obtain ⟨hs, hl⟩ := (viewStatus_eq_idle_iff s).mp hIdle
  have hstep : (step s Ev.submitClick).state =
      { s with isLoading := true, pendingReq := s.pendingReq + 1 } := by
    simp [step, hs, hl, he, hu]
  have h200 : statusOk 200 = true := rfl
  have hok : truthy (jLookup (JValue.obj [("ok", JValue.bool true)]) "ok")
      = true := rfl
  refine ⟨hIdle, ?_, ?_, ?_⟩
  · rw [hstep]
    simp [viewStatus, hs]
  · rw [hstep]
    simp [step, handleSubmitResolve, h200, hok, viewStatus]
  · have t1 : (step s Ev.submitClick).toasts = [] := by
      simp [step, hs, hl, he, hu]
    rw [t1, hstep]
    simp [step, handleSubmitResolve, h200, hok]

/-- C4 witness: the valid demo submission with the 200 ok-true answer. -/
theorem submit_success_trace_witness :
    viewStatus idleReadyState = .Idle ∧
    viewStatus (step idleReadyState Ev.submitClick).state = .Submitting ∧
    viewStatus (step (step idleReadyState Ev.submitClick).state
        (Ev.resolve (.response 200 (some (.obj [("ok", JValue.bool true)]))))).state
      = .Succeeded ∧
    (step idleReadyState Ev.submitClick).toasts ++
      (step (step idleReadyState Ev.submitClick).state
        (Ev.resolve (.response 200 (some (.obj [("ok", JValue.bool true)]))))).toasts
      = [Toast.success] :=
  submit_success_trace idleReadyState rfl rfl rfl

/--
C7: in every reachable state at most one fetch is outstanding, the view
is Submitting exactly while one is outstanding, and while one is
outstanding the submit control is disabled, so a submit event leaves the
state unchanged and issues no request.
-/
theorem single_request_invariant (s : MState) (h : Reachable s) :
    s.pendingReq ≤ 1 ∧
    (viewStatus s = .Submitting ↔ s.pendingReq = 1) ∧
    (s.pendingReq = 1 →
      buttonDisabled s = true ∧
      (step s Ev.submitClick).reqs = [] ∧
      (step s Ev.submitClick).state = s) := by
  obtain ⟨h1, h2, h3⟩ := stateInv_of_reachable h
  refine ⟨h1, ?_, fun hp => ?_⟩
  · rw [viewStatus_eq_submitting_iff]
    constructor
    · rintro ⟨_, hl⟩
      exact h2.mp hl
    · intro hp
      exact ⟨h3 (h2.mpr hp), h2.mpr hp⟩
  · have hl : s.isLoading = true := h2.mpr hp
    refine ⟨hl, ?_, ?_⟩ <;> simp [step, hl]

/-- C7 witness: the concretely reached submitting state has one
outstanding fetch and ignores further submit events. -/
theorem single_request_invariant_witness :
    submittingState.pendingReq ≤ 1 ∧
    (viewStatus submittingState = .Submitting ↔
      submittingState.pendingReq = 1) ∧
    (submittingState.pendingReq = 1 →
      buttonDisabled submittingState = true ∧
      (step submittingState Ev.submitClick).reqs = [] ∧
      (step submittingState Ev.submitClick).state = submittingState) :=
  single_request_invariant submittingState reachable_submitting
